import Mathlib

/-
Verification of the ARKlinko Plinko physics core.

The physics engine lives in two near-duplicate React components:
  - client/src/pages/plinko-game.tsx  (1400 x 900 canvas, ball radius 10, peg radius 5)
  - src/pages/arklinko-blockchain.tsx (second PlinkoCanvas: 800 x 600 canvas,
    ball radius 8, peg radius 4)
Both use gravity 0.3, bounce damping 0.7 and horizontal damping 0.98, and the
same 19-entry multiplier table.

Embedding conventions:
  - JavaScript doubles are modelled as rationals.
  - Math.sqrt is modelled as an explicit parameter sqrtQ, constrained in the
    theorems by hypotheses of the form d * d = squared-distance, 0 <= d.
  - Math.random draws are modelled as explicit rational parameters (the value
    the draw returned), so the step functions are pure.
  - Division of rationals by zero yields zero in Lean; the theorems about the
    collision normal therefore carry a positivity hypothesis on the distance,
    except where the zero-distance behaviour itself is under scrutiny.
-/

/-- A ball, as in the Ball interface of both components. -/
structure Ball where
  x : ℚ
  y : ℚ
  vx : ℚ
  vy : ℚ
  radius : ℚ
  active : Bool
  id : ℕ
  deriving Repr, DecidableEq

/-- A peg, as in the Peg interface of both components. -/
structure Peg where
  x : ℚ
  y : ℚ
  radius : ℚ
  deriving Repr, DecidableEq

/-- GRAVITY = 0.3 -/
def GRAVITY : ℚ := 3 / 10

/-- BOUNCE_DAMPING = 0.7 -/
def BOUNCE_DAMPING : ℚ := 7 / 10

/-- HORIZONTAL_DAMPING = 0.98 -/
def HORIZONTAL_DAMPING : ℚ := 98 / 100

/-- BALL_RADIUS = 10 in plinko-game.tsx. -/
def BALL_RADIUS : ℚ := 10

/-- PEG_RADIUS = 5 in plinko-game.tsx. -/
def PEG_RADIUS : ℚ := 5

/-- The multiplier table, identical in both components. -/
def MULTIPLIERS : List ℚ :=
  [10, 5, 4, 3, 2, -1/2, 3/2, 5/4, 0, -1, 0, 5/4, 3/2, -1/2, 2, 3, 4, 5, 10]

/-- Canvas width in plinko-game.tsx. -/
def canvasWidth : ℚ := 1400

/-- Canvas height in plinko-game.tsx. -/
def canvasHeight : ℚ := 900

/-- boxHeight = 80 in plinko-game.tsx. -/
def boxHeight : ℚ := 80

/-- boxY = canvas.height - boxHeight. -/
def boxY : ℚ := canvasHeight - boxHeight

/-- boxWidth = canvas.width / MULTIPLIERS.length. -/
def boxWidth : ℚ := canvasWidth / (MULTIPLIERS.length : ℚ)

/-- Squared distance between a ball centre and a peg centre,
written dx * dx + dy * dy exactly as in both source files. -/
def distSquared (b : Ball) (p : Peg) : ℚ :=
  (b.x - p.x) * (b.x - p.x) + (b.y - p.y) * (b.y - p.y)

/-- checkCollision from both components: Math.sqrt(dx*dx+dy*dy) < r+R,
with the square root supplied by the sqrtQ parameter. -/
def checkCollision (sqrtQ : ℚ → ℚ) (ball : Ball) (peg : Peg) : Bool :=
  decide (sqrtQ (distSquared ball peg) < ball.radius + peg.radius)

/-- resolveBallPegCollision from plinko-game.tsx (lines 133-151):
re-test the overlap, push the ball out to exactly radius + radius along the
normal, reflect the velocity about the normal scaled by BOUNCE_DAMPING, then
add the random horizontal perturbation (Math.random() - 0.5) * 0.5,
where rand stands for the Math.random() draw. -/
def resolveBallPegCollision (sqrtQ : ℚ → ℚ) (rand : ℚ) (ball : Ball) (peg : Peg) : Ball :=
  let dx := ball.x - peg.x
  let dy := ball.y - peg.y
  let distance := sqrtQ (dx * dx + dy * dy)
  if distance < ball.radius + peg.radius then
    let normalX := dx / distance
    let normalY := dy / distance
    let x1 := peg.x + normalX * (ball.radius + peg.radius)
    let y1 := peg.y + normalY * (ball.radius + peg.radius)
    let dotProduct := ball.vx * normalX + ball.vy * normalY
    let vx1 := (ball.vx - 2 * dotProduct * normalX) * BOUNCE_DAMPING
    let vy1 := (ball.vy - 2 * dotProduct * normalY) * BOUNCE_DAMPING
    { ball with x := x1, y := y1, vx := vx1 + (rand - 1/2) * (1/2), vy := vy1 }
  else ball

/-- resolveBallPegCollision from the second PlinkoCanvas of
arklinko-blockchain.tsx (lines 1042-1064): guarded by distance > 0, moves the
ball by half the overlap along the normal, subtracts the damped impulse from
the velocity, then adds the random horizontal perturbation
(Math.random() - 0.5) * 1. -/
def resolveBallPegCollisionBC (sqrtQ : ℚ → ℚ) (rand : ℚ) (ball : Ball) (peg : Peg) : Ball :=
  let dx := ball.x - peg.x
  let dy := ball.y - peg.y
  let distance := sqrtQ (dx * dx + dy * dy)
  if 0 < distance then
    let overlap := ball.radius + peg.radius - distance
    let separationX := dx / distance * overlap * (1/2)
    let separationY := dy / distance * overlap * (1/2)
    let x1 := ball.x + separationX
    let y1 := ball.y + separationY
    let normalX := dx / distance
    let normalY := dy / distance
    let velDotNormal := ball.vx * normalX + ball.vy * normalY
    let vx1 := ball.vx - 2 * velDotNormal * normalX * BOUNCE_DAMPING
    let vy1 := ball.vy - 2 * velDotNormal * normalY * BOUNCE_DAMPING
    { ball with x := x1, y := y1, vx := vx1 + (rand - 1/2) * 1, vy := vy1 }
  else ball

/-- The per-ball integration of one animation step (plinko-game.tsx
lines 221-225): ball.vy += GRAVITY; ball.vx *= HORIZONTAL_DAMPING;
ball.x += ball.vx; ball.y += ball.vy. -/
def integrate (ball : Ball) : Ball :=
  let vy1 := ball.vy + GRAVITY
  let vx1 := ball.vx * HORIZONTAL_DAMPING
  { ball with vy := vy1, vx := vx1, x := ball.x + vx1, y := ball.y + vy1 }

/-- The wall-bounce block of plinko-game.tsx (lines 243-247):
if (ball.x <= radius or ball.x >= width - radius) invert and damp vx and
clamp x into [radius, width - radius]. -/
def wallBounce (ball : Ball) : Ball :=
  if ball.x ≤ ball.radius ∨ canvasWidth - ball.radius ≤ ball.x then
    { ball with vx := ball.vx * (-BOUNCE_DAMPING),
                x := max ball.radius (min (canvasWidth - ball.radius) ball.x) }
  else ball

/-- The clamped slot index of plinko-game.tsx (lines 236-237):
Math.max(0, Math.min(MULTIPLIERS.length - 1, Math.floor(ball.x / boxWidth))). -/
def validSlotIndex (x : ℚ) : ℤ :=
  max 0 (min ((MULTIPLIERS.length : ℤ) - 1) ⌊x / boxWidth⌋)

/-- The multiplier looked up at the clamped slot index (line 238). -/
def landedMultiplier (x : ℚ) : ℚ :=
  MULTIPLIERS.getD (validSlotIndex x).toNat 0

/-- The peg-collision pass of one step (plinko-game.tsx lines 228-232):
for each peg in order, if checkCollision then resolveBallPegCollision.
The rands list supplies one Math.random() draw per resolved collision. -/
def collidePegs (sqrtQ : ℚ → ℚ) (rands : List ℚ) (pegs : List Peg) (ball : Ball) :
    Ball × List ℚ :=
  pegs.foldl
    (fun st peg =>
      if checkCollision sqrtQ st.1 peg then
        (resolveBallPegCollision sqrtQ (st.2.headD (1/2)) st.1 peg, st.2.tail)
      else st)
    (ball, rands)

/-- One full per-ball step of the plinko-game.tsx animation filter
(lines 218-260): inactive balls are dropped; otherwise integrate, resolve peg
collisions, then either land (drop the ball and emit the multiplier) or
wall-bounce and keep the ball. The first component is the surviving ball
(none = removed from the active set), the second the emitted callback value. -/
def stepBall (sqrtQ : ℚ → ℚ) (rands : List ℚ) (pegs : List Peg) (ball : Ball) :
    Option Ball × Option ℚ :=
  if ball.active then
    let b1 := integrate ball
    let b2 := (collidePegs sqrtQ rands pegs b1).1
    if boxY - b2.radius < b2.y then
      (none, some (landedMultiplier b2.x))
    else
      (some (wallBounce b2), none)
  else (none, none)

/-- The clamped slot lookup of the blockchain variant (lines 1097-1101),
parameterised by the canvas width (800 there). -/
def landedMultiplierW (width x : ℚ) : ℚ :=
  MULTIPLIERS.getD (max 0 (min ((MULTIPLIERS.length : ℤ) - 1) ⌊x / (width / (MULTIPLIERS.length : ℚ))⌋)).toNat 0

/-- One per-ball pass of updatePhysics in the second PlinkoCanvas of
arklinko-blockchain.tsx (lines 1070-1106): skip inactive balls; integrate;
resolve peg collisions; clamp at the left then right wall; on crossing
height - 60, set active to false and emit the multiplier (the splice of the
ball out of the array happens later, on a timer; the active flag is the
immediate deactivation). Returns the updated ball and the emitted value. -/
def updateBallBC (sqrtQ : ℚ → ℚ) (rands : List ℚ) (pegs : List Peg)
    (width height : ℚ) (ball : Ball) : Ball × Option ℚ :=
  if ball.active then
    let b1 := integrate ball
    let b2 := (pegs.foldl
      (fun st peg =>
        if checkCollision sqrtQ st.1 peg then
          (resolveBallPegCollisionBC sqrtQ (st.2.headD (1/2)) st.1 peg, st.2.tail)
        else st)
      (b1, rands)).1
    let b3 := if b2.x - b2.radius < 0 then
        { b2 with x := b2.radius, vx := -b2.vx * BOUNCE_DAMPING } else b2
    let b4 := if width < b3.x + b3.radius then
        { b3 with x := width - b3.radius, vx := -b3.vx * BOUNCE_DAMPING } else b3
    if height - 60 < b4.y then
      ({ b4 with active := false }, some (landedMultiplierW width b4.x))
    else (b4, none)
  else (ball, none)

/-- numRows = 20 in the peg initialisation of plinko-game.tsx. -/
def numRows : ℕ := 20

/-- playAreaTop = 100. -/
def playAreaTop : ℚ := 100

/-- playAreaBottom = canvasHeight - 100. -/
def playAreaBottom : ℚ := canvasHeight - 100

/-- playAreaLeft = 70. -/
def playAreaLeft : ℚ := 70

/-- playAreaRight = canvasWidth - 70. -/
def playAreaRight : ℚ := canvasWidth - 70

/-- playAreaWidth = playAreaRight - playAreaLeft. -/
def playAreaWidth : ℚ := playAreaRight - playAreaLeft

/-- playAreaHeight = playAreaBottom - playAreaTop. -/
def playAreaHeight : ℚ := playAreaBottom - playAreaTop

/-- pegsInRow = 6 + Math.floor((row / (numRows - 1)) * 13), plinko-game.tsx
line 78. -/
def pegsInRow (row : ℕ) : ℕ :=
  6 + (⌊(row : ℚ) / ((numRows : ℚ) - 1) * 13⌋).toNat

/-- The pegs the initialisation effect of plinko-game.tsx (lines 76-96) pushes
for one row: evenly spaced x positions, a half-spacing offset on odd rows, and
a peg kept only if its x lies within [playAreaLeft, playAreaRight]. -/
def rowPegs (row : ℕ) : List Peg :=
  let y := playAreaTop + (row : ℚ) * (playAreaHeight / ((numRows : ℚ) - 1))
  let n := pegsInRow row
  (List.range n).filterMap (fun col =>
    let x0 : ℚ :=
      if n = 1 then canvasWidth / 2
      else playAreaLeft + (col : ℚ) * (playAreaWidth / ((n : ℚ) - 1))
    let x := if row % 2 = 1 then x0 + playAreaWidth / ((n : ℚ) - 1) / 2 else x0
    if playAreaLeft ≤ x ∧ x ≤ playAreaRight then some ⟨x, y, PEG_RADIUS⟩ else none)

/-- The full peg field generated by the initialisation effect (rows 0..19,
concatenated in row order). -/
def generatePegs : List Peg :=
  (List.range numRows).flatMap rowPegs

/-- A concrete stand-in for Math.sqrt, exact on the squared distances used by
the concrete instances below and zero elsewhere. -/
def sqrtTable (q : ℚ) : ℚ :=
  if q = 25 then 5 else 0


/-- The integration result written without lets, for rewriting. -/
lemma integrate_eq (b : Ball) :
    integrate b = { b with
      x := b.x + b.vx * HORIZONTAL_DAMPING,
      y := b.y + (b.vy + GRAVITY),
      vx := b.vx * HORIZONTAL_DAMPING,
      vy := b.vy + GRAVITY } := rfl

/-- Claim C1: for every landing ball, the resolved slot index equals
floor(ball.x / (board_width / slot_count)) clamped to [0, slot_count - 1],
so 0 <= slot_index < slot_count for every rational ball.x, and a ball landing
at x = 1399.9 on the 1400-wide board with 19 slots resolves to slot 18. -/
theorem slot_index_clamped_floor :
    (∀ x : ℚ, validSlotIndex x = max 0 (min 18 ⌊x / (1400 / 19)⌋)) ∧
    (∀ x : ℚ, 0 ≤ validSlotIndex x ∧ validSlotIndex x < 19) ∧
    validSlotIndex (13999 / 10) = 18 := by
  have hv : ∀ x : ℚ, validSlotIndex x = max 0 (min 18 ⌊x / (1400 / 19)⌋) := by
    intro x
    simp [validSlotIndex, boxWidth, MULTIPLIERS, canvasWidth]
  refine ⟨hv, fun x => ?_, ?_⟩
  · rw [hv x]
    constructor
    · exact le_max_left 0 _
    · have h1 : min 18 ⌊x / (1400 / 19)⌋ ≤ 18 := min_le_left _ _
      have h2 : max 0 (min 18 ⌊x / (1400 / 19)⌋) ≤ 18 :=
        max_le (by norm_num) h1
      omega
  · rw [hv (13999 / 10)]
    have hf : ⌊(13999 / 10 : ℚ) / (1400 / 19)⌋ = 18 := by
      norm_num
    rw [hf]
    omega

/-- Claim C2: one integration step updates exactly
vy + gravity (0.3), vx * 0.98, then x + new vx and y + new vy
(semi-implicit Euler); the update reads only the ball itself. -/
theorem integration_semi_implicit_euler :
    ∀ b : Ball,
      (integrate b).vy = b.vy + 3 / 10 ∧
      (integrate b).vx = b.vx * (98 / 100) ∧
      (integrate b).x = b.x + (integrate b).vx ∧
      (integrate b).y = b.y + (integrate b).vy := by
  intro b
  simp [integrate_eq, GRAVITY, HORIZONTAL_DAMPING]

/-- Closed form of N integration steps with no collisions: vx decays
geometrically (here from 0), vy grows linearly, y accumulates the arithmetic
series. Stated for a ball with vx = 0. -/
lemma integrate_iter_closed (b : Ball) (hvx : b.vx = 0) : ∀ N : ℕ,
    (integrate^[N] b).vx = 0 ∧
    (integrate^[N] b).x = b.x ∧
    (integrate^[N] b).vy = b.vy + (3 / 10) * N ∧
    (integrate^[N] b).y = b.y + b.vy * N + (3 / 10) * (N * (N + 1) / 2) := by
  intro N
  induction N with
  | zero => simp [hvx]
  | succ n ih =>
    obtain ⟨ih1, ih2, ih3, ih4⟩ := ih
    rw [Function.iterate_succ_apply', integrate_eq]
    refine ⟨?_, ?_, ?_, ?_⟩ <;> simp [ih1, ih2, ih3, ih4, GRAVITY, HORIZONTAL_DAMPING]
    · ring
    · ring

/-- Claim C8: a ball with vx = vy = 0, integrated N steps with no collisions,
ends at y = y0 + 0.3 * N * (N + 1) / 2 with x unchanged. -/
theorem gravity_series (b : Ball) (N : ℕ) (hvx : b.vx = 0) (hvy : b.vy = 0) :
    (integrate^[N] b).y = b.y + (3 / 10) * (N * (N + 1) / 2) ∧
    (integrate^[N] b).x = b.x := by
  obtain ⟨-, h2, -, h4⟩ := integrate_iter_closed b hvx N
  refine ⟨?_, h2⟩
  rw [h4, hvy]
  ring

/-- Witness for C8: from rest at (700, 50), four steps land at
y = 50 + 0.3 * 10 = 53 with x still 700. -/
theorem gravity_series_witness :
    (integrate^[4] (⟨700, 50, 0, 0, 10, true, 0⟩ : Ball)).y = 53 ∧
    (integrate^[4] (⟨700, 50, 0, 0, 10, true, 0⟩ : Ball)).x = 700 := by
  have h := gravity_series ⟨700, 50, 0, 0, 10, true, 0⟩ 4 rfl rfl
  norm_num at h
  exact h

/-- After the wall-bounce block, x always lies in
[radius, canvasWidth - radius] (provided the board is at least two radii
wide). Shared by the wall-bounce and step-invariant theorems. -/
lemma wallBounce_x_bounds (b : Ball) (hr : b.radius ≤ canvasWidth - b.radius) :
    b.radius ≤ (wallBounce b).x ∧ (wallBounce b).x ≤ canvasWidth - b.radius := by
  unfold wallBounce
  split
  · constructor
    · exact le_max_left _ _
    · exact max_le hr (min_le_left _ _)
  · rename_i h
    push_neg at h
    exact ⟨le_of_lt h.1, le_of_lt h.2⟩

/-- The wall-bounce block does not change the radius field. -/
lemma wallBounce_radius (b : Ball) : (wallBounce b).radius = b.radius := by
  unfold wallBounce
  split <;> rfl

/-- The plinko-game collision resolver does not change the radius field. -/
lemma resolveBallPegCollision_radius (sqrtQ : ℚ → ℚ) (rand : ℚ) (b : Ball) (p : Peg) :
    (resolveBallPegCollision sqrtQ rand b p).radius = b.radius := by
  unfold resolveBallPegCollision
  dsimp only
  split <;> rfl

/-- The peg-collision pass does not change the radius field. -/
lemma collidePegs_radius (sqrtQ : ℚ → ℚ) (rands : List ℚ) (pegs : List Peg) (b : Ball) :
    (collidePegs sqrtQ rands pegs b).1.radius = b.radius := by
  unfold collidePegs
  induction pegs generalizing b rands with
  | nil => rfl
  | cons p ps ih =>
    rw [List.foldl_cons]
    split
    · rw [ih]
      exact resolveBallPegCollision_radius ..
    · exact ih ..

/-- Claim C9: at the wall-bounce block (lines 243-247), a ball at or beyond
the left edge with negative vx gets its horizontal velocity inverted and
damped (vx becomes -0.7 * vx) and its x clamped to radius; symmetrically a
ball at or beyond the right edge is clamped to width - radius; and after the
block x never lies below radius. -/
theorem wall_bounce_invert_and_clamp (b : Ball)
    (hr : b.radius ≤ canvasWidth - b.radius) :
    (b.x ≤ b.radius → b.vx < 0 →
      (wallBounce b).vx = -(7 / 10) * b.vx ∧ (wallBounce b).x = b.radius) ∧
    (canvasWidth - b.radius ≤ b.x → (wallBounce b).x = canvasWidth - b.radius) ∧
    b.radius ≤ (wallBounce b).x := by
  refine ⟨fun hx _hv => ?_, fun hx => ?_, (wallBounce_x_bounds b hr).1⟩
  · rw [wallBounce, if_pos (Or.inl hx)]
    constructor
    · show b.vx * (-BOUNCE_DAMPING) = -(7 / 10) * b.vx
      rw [BOUNCE_DAMPING]
      ring
    · show max b.radius (min (canvasWidth - b.radius) b.x) = b.radius
      rw [min_eq_right (le_trans hx hr), max_eq_left hx]
  · rw [wallBounce, if_pos (Or.inr hx)]
    show max b.radius (min (canvasWidth - b.radius) b.x) = canvasWidth - b.radius
    rw [min_eq_left hx, max_eq_right hr]

/-- Witness for C9: a radius-10 ball exactly at x = 10 with vx = -1 is
clamped to x = 10 with vx = 0.7. -/
theorem wall_bounce_invert_and_clamp_witness :
    (wallBounce (⟨10, 400, -1, 2, 10, true, 0⟩ : Ball)).vx = 7 / 10 ∧
    (wallBounce (⟨10, 400, -1, 2, 10, true, 0⟩ : Ball)).x = 10 := by
  have h := (wall_bounce_invert_and_clamp ⟨10, 400, -1, 2, 10, true, 0⟩
      (by norm_num [canvasWidth])).1 (by norm_num) (by norm_num)
  norm_num [canvasWidth] at h
  exact h

/-- Claim C10: every ball surviving a full animation step has its x within
[radius, canvasWidth - radius]; the wall-bounce clamp is the last mutation of
a surviving ball, after integration and peg-collision resolution. -/
theorem step_keeps_x_within_walls (sqrtQ : ℚ → ℚ) (rands : List ℚ) (pegs : List Peg)
    (b b2 : Ball) (hr : b.radius ≤ canvasWidth - b.radius)
    (hs : (stepBall sqrtQ rands pegs b).1 = some b2) :
    b2.radius ≤ b2.x ∧ b2.x ≤ canvasWidth - b2.radius := by
  have hcr : (collidePegs sqrtQ rands pegs (integrate b)).1.radius = b.radius := by
    rw [collidePegs_radius]
    rfl
  unfold stepBall at hs
  dsimp only at hs
  split at hs
  · split at hs
    · exact absurd hs (by simp)
    · rw [Option.some.injEq] at hs
      subst hs
      rw [wallBounce_radius, hcr]
      have hb := wallBounce_x_bounds (collidePegs sqrtQ rands pegs (integrate b)).1
        (by rw [hcr]; exact hr)
      rwa [hcr] at hb
  · exact absurd hs (by simp)

/-- Witness for C10: a radius-10 ball at (700, 400) survives a step on the
empty peg field and ends with x = 700 inside [10, 1390]. -/
theorem step_keeps_x_within_walls_witness :
    ((⟨700, 4003/10, 0, 3/10, 10, true, 0⟩ : Ball)).radius ≤
      ((⟨700, 4003/10, 0, 3/10, 10, true, 0⟩ : Ball)).x ∧
    ((⟨700, 4003/10, 0, 3/10, 10, true, 0⟩ : Ball)).x ≤
      canvasWidth - ((⟨700, 4003/10, 0, 3/10, 10, true, 0⟩ : Ball)).radius := by
  refine step_keeps_x_within_walls sqrtTable [] [] ⟨700, 400, 0, 0, 10, true, 0⟩ _
    (by norm_num [canvasWidth]) ?_
  simp [stepBall, collidePegs, integrate_eq, wallBounce, boxY, canvasHeight,
    boxHeight, canvasWidth, GRAVITY, HORIZONTAL_DAMPING]
  norm_num [Ball.mk.injEq]

/-- Claim C7: the landing callback fires exactly once per ball. In the
plinko-game filter an inactive ball is dropped without a callback and a ball
that triggers the callback is removed from the active set in the same step;
in the blockchain updatePhysics an already-deactivated ball is returned
unchanged with no callback, and a ball that triggers the callback leaves the
step already deactivated. -/
theorem landing_resolution_once (sqrtQ : ℚ → ℚ) (rands : List ℚ) (pegs : List Peg)
    (b : Ball) :
    (b.active = false → stepBall sqrtQ rands pegs b = (none, none)) ∧
    (∀ (ob : Option Ball) (m : ℚ),
      stepBall sqrtQ rands pegs b = (ob, some m) → ob = none) ∧
    (b.active = false → updateBallBC sqrtQ rands pegs 800 600 b = (b, none)) ∧
    (∀ (b2 : Ball) (m : ℚ),
      updateBallBC sqrtQ rands pegs 800 600 b = (b2, some m) → b2.active = false) := by
  refine ⟨fun h => by simp [stepBall, h], fun ob m hm => ?_,
    fun h => by simp [updateBallBC, h], fun b2 m hm => ?_⟩
  · unfold stepBall at hm
    dsimp only at hm
    repeat' split at hm
    all_goals rw [Prod.mk.injEq] at hm
    all_goals first
      | exact Option.noConfusion hm.2
      | exact hm.1.symm
  · unfold updateBallBC at hm
    dsimp only at hm
    repeat' split at hm
    all_goals rw [Prod.mk.injEq] at hm
    all_goals first
      | exact Option.noConfusion hm.2
      | (rw [← hm.1])

/-- Witness for C7: an inactive ball is dropped silently; a ball landing at
x = 700 is removed in the same step; an inactive blockchain ball passes
through unchanged; a blockchain ball landing at x = 400 leaves the step
deactivated. -/
theorem landing_resolution_once_witness :
    stepBall sqrtTable [] [] ⟨0, 0, 0, 0, 10, false, 3⟩ = (none, none) ∧
    (none : Option Ball) = none ∧
    updateBallBC sqrtTable [] [] 800 600 ⟨0, 0, 0, 0, 8, false, 5⟩
      = (⟨0, 0, 0, 0, 8, false, 5⟩, none) ∧
    ((⟨400, 5603/10, 0, 3/10, 8, false, 6⟩ : Ball)).active = false := by
  have h1 := (landing_resolution_once sqrtTable [] [] ⟨0, 0, 0, 0, 10, false, 3⟩).1 rfl
  have h2 := (landing_resolution_once sqrtTable [] [] ⟨700, 850, 0, 0, 10, true, 4⟩).2.1
    none (-1) (by
      simp [stepBall, collidePegs, integrate_eq, boxY, canvasHeight, boxHeight,
        GRAVITY, HORIZONTAL_DAMPING, landedMultiplier, validSlotIndex, boxWidth,
        canvasWidth, MULTIPLIERS]
      norm_num
      rfl)
  have h3 := (landing_resolution_once sqrtTable [] [] ⟨0, 0, 0, 0, 8, false, 5⟩).2.2.1 rfl
  have h4 := (landing_resolution_once sqrtTable [] [] ⟨400, 560, 0, 0, 8, true, 6⟩).2.2.2
    ⟨400, 5603/10, 0, 3/10, 8, false, 6⟩ (-1) (by
      simp [updateBallBC, integrate_eq, GRAVITY, HORIZONTAL_DAMPING,
        landedMultiplierW, MULTIPLIERS]
      norm_num [Ball.mk.injEq]
      rfl)
  exact ⟨h1, h2, h3, h4⟩

/-- Counterexample to C3 as stated: the blockchain-variant resolver (cited as
a source of the claim) moves the ball only half the overlap. For a radius-8
ball at (3,4) against a radius-4 peg at the origin (distance 5, sum of radii
12), the resolved squared distance is 289/4 = (8.5)^2, not 144 = 12^2. -/
theorem residual_overlap_after_bc_resolution :
    distSquared (resolveBallPegCollisionBC sqrtTable (1/2)
        ⟨3, 4, 1, 10, 8, true, 0⟩ ⟨0, 0, 4⟩) ⟨0, 0, 4⟩ = 289/4 ∧
    ((⟨3, 4, 1, 10, 8, true, 0⟩ : Ball).radius + (⟨0, 0, 4⟩ : Peg).radius) *
      ((⟨3, 4, 1, 10, 8, true, 0⟩ : Ball).radius + (⟨0, 0, 4⟩ : Peg).radius) = 144 ∧
    (289/4 : ℚ) ≠ 144 := by
  refine ⟨?_, by norm_num, by norm_num⟩
  norm_num [resolveBallPegCollisionBC, sqrtTable, distSquared, BOUNCE_DAMPING]

/-- Claim C3 amended: for the plinko-game resolver, when the computed
distance d is the exact square root of the squared centre distance, positive
and below the sum of radii, the resolved ball sits at squared distance
exactly (sum of radii)^2 from the peg: no residual overlap. -/
theorem resolved_distance_eq_radii_sum (sqrtQ : ℚ → ℚ) (rand : ℚ) (b : Ball) (p : Peg)
    (d : ℚ) (hs : sqrtQ (distSquared b p) = d) (hd : d * d = distSquared b p)
    (hpos : 0 < d) (hcol : d < b.radius + p.radius) :
    distSquared (resolveBallPegCollision sqrtQ rand b p) p
      = (b.radius + p.radius) * (b.radius + p.radius) := by
  have hne : d ≠ 0 := ne_of_gt hpos
  unfold resolveBallPegCollision
  dsimp only
  simp only [distSquared] at hs hd ⊢
  rw [hs, if_pos hcol]
  dsimp only
  field_simp
  linear_combination ((b.radius + p.radius) * (b.radius + p.radius)) * hd.symm

/-- Witness for C3 amended: radius-10 ball at (3,4), radius-5 peg at the
origin, distance 5: the resolved squared distance is 225 = 15^2. -/
theorem resolved_distance_eq_radii_sum_witness :
    distSquared (resolveBallPegCollision sqrtTable (1/2)
        ⟨3, 4, 1, 10, 10, true, 0⟩ ⟨0, 0, 5⟩) ⟨0, 0, 5⟩ = 225 := by
  have h := resolved_distance_eq_radii_sum sqrtTable (1/2)
    ⟨3, 4, 1, 10, 10, true, 0⟩ ⟨0, 0, 5⟩ 5
    (by norm_num [sqrtTable, distSquared]) (by norm_num [distSquared])
    (by norm_num) (by norm_num)
  exact h.trans (by norm_num)

/-- Counterexample to C4 as stated: the blockchain-variant resolver damps only
the impulse term (v - 2(v.n)n * 0.7), not the whole reflected velocity
((v - 2(v.n)n) * 0.7). At ball (3,4), v = (1,10), peg at origin, distance 5,
the resolver yields vx = -778/125 = -6.224 while the claimed formula gives
-1631/250 = -6.524. -/
theorem damped_impulse_not_reflection_bc :
    (resolveBallPegCollisionBC sqrtTable (1/2)
        ⟨3, 4, 1, 10, 8, true, 0⟩ ⟨0, 0, 4⟩).vx = -778/125 ∧
    ((1 : ℚ) - 2 * (1 * (3/5) + 10 * (4/5)) * (3/5)) * (7/10) = -1631/250 ∧
    (-778/125 : ℚ) ≠ -1631/250 := by
  refine ⟨?_, by norm_num, by norm_num⟩
  norm_num [resolveBallPegCollisionBC, sqrtTable, distSquared, BOUNCE_DAMPING]

/-- Claim C4 amended: for the plinko-game resolver, the post-collision
velocity before the random horizontal perturbation equals the reflection of
the incoming velocity about the unit collision normal n = (dx/d, dy/d),
scaled by 0.7; the perturbation (rand - 0.5) * 0.5 is then added to vx only. -/
theorem reflection_scaled_by_damping (sqrtQ : ℚ → ℚ) (rand : ℚ) (b : Ball) (p : Peg)
    (d : ℚ) (hs : sqrtQ (distSquared b p) = d) (_hd : d * d = distSquared b p)
    (_hpos : 0 < d) (hcol : d < b.radius + p.radius) :
    (resolveBallPegCollision sqrtQ rand b p).vy
      = (b.vy - 2 * (b.vx * ((b.x - p.x) / d) + b.vy * ((b.y - p.y) / d))
          * ((b.y - p.y) / d)) * (7/10) ∧
    (resolveBallPegCollision sqrtQ rand b p).vx
      = (b.vx - 2 * (b.vx * ((b.x - p.x) / d) + b.vy * ((b.y - p.y) / d))
          * ((b.x - p.x) / d)) * (7/10) + (rand - 1/2) * (1/2) := by
  unfold resolveBallPegCollision
  dsimp only
  simp only [distSquared] at hs
  rw [hs, if_pos hcol]
  exact ⟨by rw [BOUNCE_DAMPING], by rw [BOUNCE_DAMPING]⟩

/-- Witness for C4 amended: ball (3,4) with v = (1,10) against the origin peg
at distance 5 leaves with vy = -329/125 and vx = -1631/250 (perturbation 0). -/
theorem reflection_scaled_by_damping_witness :
    (resolveBallPegCollision sqrtTable (1/2)
        ⟨3, 4, 1, 10, 10, true, 0⟩ ⟨0, 0, 5⟩).vy = -329/125 ∧
    (resolveBallPegCollision sqrtTable (1/2)
        ⟨3, 4, 1, 10, 10, true, 0⟩ ⟨0, 0, 5⟩).vx = -1631/250 := by
  have h := reflection_scaled_by_damping sqrtTable (1/2)
    ⟨3, 4, 1, 10, 10, true, 0⟩ ⟨0, 0, 5⟩ 5
    (by norm_num [sqrtTable, distSquared]) (by norm_num [distSquared])
    (by norm_num) (by norm_num)
  exact ⟨h.1.trans (by norm_num), h.2.trans (by norm_num)⟩

/-- Counterexample to C5 as stated: a ball-peg pair with coincident centres
(squared distance 0, below every positive epsilon) is not treated as
no-collision by the plinko-game resolver: the ball is modified (its vx is
damped from 1 to 0.7), so the resolver did enter the normal-vector branch. -/
theorem no_epsilon_skip_in_plinko_resolver :
    distSquared ⟨5, 5, 1, 0, 10, true, 0⟩ ⟨5, 5, 5⟩ = 0 ∧
    resolveBallPegCollision sqrtTable (1/2) ⟨5, 5, 1, 0, 10, true, 0⟩ ⟨5, 5, 5⟩
      ≠ ⟨5, 5, 1, 0, 10, true, 0⟩ := by
  constructor
  · norm_num [distSquared]
  · norm_num [resolveBallPegCollision, sqrtTable, BOUNCE_DAMPING, Ball.mk.injEq]

/-- Claim C5 amended: only the blockchain-variant resolver guards the
degenerate distance, and only against non-positive computed distance (the
guard is distance > 0): whenever the computed square root is not positive it
returns the ball unchanged. The plinko-game resolver has no such guard: at
exactly coincident centres it still executes the normal-vector branch. -/
theorem zero_distance_guard_variants (sqrtQ : ℚ → ℚ) (rand : ℚ) (b : Ball) (p : Peg) :
    (sqrtQ (distSquared b p) ≤ 0 → resolveBallPegCollisionBC sqrtQ rand b p = b) ∧
    resolveBallPegCollision sqrtTable (1/2) ⟨7, 7, 2, 0, 10, true, 1⟩ ⟨7, 7, 5⟩
      ≠ ⟨7, 7, 2, 0, 10, true, 1⟩ := by
  constructor
  · intro h0
    unfold resolveBallPegCollisionBC
    dsimp only
    rw [if_neg (not_lt.mpr (by simpa [distSquared] using h0))]
  · norm_num [resolveBallPegCollision, sqrtTable, BOUNCE_DAMPING, Ball.mk.injEq]

/-- Witness for C5 amended: the blockchain resolver leaves a ball with centre
exactly on a peg centre unchanged. -/
theorem zero_distance_guard_variants_witness :
    resolveBallPegCollisionBC sqrtTable (1/2) ⟨9, 9, 3, 1, 8, true, 2⟩ ⟨9, 9, 4⟩
      = ⟨9, 9, 3, 1, 8, true, 2⟩ :=
  (zero_distance_guard_variants sqrtTable (1/2) ⟨9, 9, 3, 1, 8, true, 2⟩ ⟨9, 9, 4⟩).1
    (by norm_num [sqrtTable, distSquared])

/-- Row 0 of the generated peg field keeps 6 pegs. -/
lemma rowPegsLen0 : (rowPegs 0).length = 6 := by
  have hn : pegsInRow 0 = 6 := by norm_num [pegsInRow, numRows] <;> rfl
  simp only [rowPegs, hn]
  norm_num [List.range_succ, List.filterMap_cons, List.filterMap_nil,
    List.filterMap_append, playAreaTop, playAreaHeight, playAreaBottom,
    playAreaLeft, playAreaRight, playAreaWidth, canvasWidth, canvasHeight]

/-- Row 1 of the generated peg field keeps 5 pegs. -/
lemma rowPegsLen1 : (rowPegs 1).length = 5 := by
  have hn : pegsInRow 1 = 6 := by norm_num [pegsInRow, numRows] <;> rfl
  simp only [rowPegs, hn]
  norm_num [List.range_succ, List.filterMap_cons, List.filterMap_nil,
    List.filterMap_append, playAreaTop, playAreaHeight, playAreaBottom,
    playAreaLeft, playAreaRight, playAreaWidth, canvasWidth, canvasHeight]

/-- Row 2 of the generated peg field keeps 7 pegs. -/
lemma rowPegsLen2 : (rowPegs 2).length = 7 := by
  have hn : pegsInRow 2 = 7 := by norm_num [pegsInRow, numRows] <;> rfl
  simp only [rowPegs, hn]
  norm_num [List.range_succ, List.filterMap_cons, List.filterMap_nil,
    List.filterMap_append, playAreaTop, playAreaHeight, playAreaBottom,
    playAreaLeft, playAreaRight, playAreaWidth, canvasWidth, canvasHeight]

/-- Row 3 of the generated peg field keeps 7 pegs. -/
lemma rowPegsLen3 : (rowPegs 3).length = 7 := by
  have hn : pegsInRow 3 = 8 := by norm_num [pegsInRow, numRows] <;> rfl
  simp only [rowPegs, hn]
  norm_num [List.range_succ, List.filterMap_cons, List.filterMap_nil,
    List.filterMap_append, playAreaTop, playAreaHeight, playAreaBottom,
    playAreaLeft, playAreaRight, playAreaWidth, canvasWidth, canvasHeight]

/-- Row 4 of the generated peg field keeps 8 pegs. -/
lemma rowPegsLen4 : (rowPegs 4).length = 8 := by
  have hn : pegsInRow 4 = 8 := by norm_num [pegsInRow, numRows] <;> rfl
  simp only [rowPegs, hn]
  norm_num [List.range_succ, List.filterMap_cons, List.filterMap_nil,
    List.filterMap_append, playAreaTop, playAreaHeight, playAreaBottom,
    playAreaLeft, playAreaRight, playAreaWidth, canvasWidth, canvasHeight]

/-- Row 5 of the generated peg field keeps 8 pegs. -/
lemma rowPegsLen5 : (rowPegs 5).length = 8 := by
  have hn : pegsInRow 5 = 9 := by norm_num [pegsInRow, numRows] <;> rfl
  simp only [rowPegs, hn]
  norm_num [List.range_succ, List.filterMap_cons, List.filterMap_nil,
    List.filterMap_append, playAreaTop, playAreaHeight, playAreaBottom,
    playAreaLeft, playAreaRight, playAreaWidth, canvasWidth, canvasHeight]

/-- Row 6 of the generated peg field keeps 10 pegs. -/
lemma rowPegsLen6 : (rowPegs 6).length = 10 := by
  have hn : pegsInRow 6 = 10 := by norm_num [pegsInRow, numRows] <;> rfl
  simp only [rowPegs, hn]
  norm_num [List.range_succ, List.filterMap_cons, List.filterMap_nil,
    List.filterMap_append, playAreaTop, playAreaHeight, playAreaBottom,
    playAreaLeft, playAreaRight, playAreaWidth, canvasWidth, canvasHeight]

/-- Row 7 of the generated peg field keeps 9 pegs. -/
lemma rowPegsLen7 : (rowPegs 7).length = 9 := by
  have hn : pegsInRow 7 = 10 := by norm_num [pegsInRow, numRows] <;> rfl
  simp only [rowPegs, hn]
  norm_num [List.range_succ, List.filterMap_cons, List.filterMap_nil,
    List.filterMap_append, playAreaTop, playAreaHeight, playAreaBottom,
    playAreaLeft, playAreaRight, playAreaWidth, canvasWidth, canvasHeight]

/-- Row 8 of the generated peg field keeps 11 pegs. -/
lemma rowPegsLen8 : (rowPegs 8).length = 11 := by
  have hn : pegsInRow 8 = 11 := by norm_num [pegsInRow, numRows] <;> rfl
  simp only [rowPegs, hn]
  norm_num [List.range_succ, List.filterMap_cons, List.filterMap_nil,
    List.filterMap_append, playAreaTop, playAreaHeight, playAreaBottom,
    playAreaLeft, playAreaRight, playAreaWidth, canvasWidth, canvasHeight]

/-- Row 9 of the generated peg field keeps 11 pegs. -/
lemma rowPegsLen9 : (rowPegs 9).length = 11 := by
  have hn : pegsInRow 9 = 12 := by norm_num [pegsInRow, numRows] <;> rfl
  simp only [rowPegs, hn]
  norm_num [List.range_succ, List.filterMap_cons, List.filterMap_nil,
    List.filterMap_append, playAreaTop, playAreaHeight, playAreaBottom,
    playAreaLeft, playAreaRight, playAreaWidth, canvasWidth, canvasHeight]

/-- Row 10 of the generated peg field keeps 12 pegs. -/
lemma rowPegsLen10 : (rowPegs 10).length = 12 := by
  have hn : pegsInRow 10 = 12 := by norm_num [pegsInRow, numRows] <;> rfl
  simp only [rowPegs, hn]
  norm_num [List.range_succ, List.filterMap_cons, List.filterMap_nil,
    List.filterMap_append, playAreaTop, playAreaHeight, playAreaBottom,
    playAreaLeft, playAreaRight, playAreaWidth, canvasWidth, canvasHeight]

/-- Row 11 of the generated peg field keeps 12 pegs. -/
lemma rowPegsLen11 : (rowPegs 11).length = 12 := by
  have hn : pegsInRow 11 = 13 := by norm_num [pegsInRow, numRows] <;> rfl
  simp only [rowPegs, hn]
  norm_num [List.range_succ, List.filterMap_cons, List.filterMap_nil,
    List.filterMap_append, playAreaTop, playAreaHeight, playAreaBottom,
    playAreaLeft, playAreaRight, playAreaWidth, canvasWidth, canvasHeight]

/-- Row 12 of the generated peg field keeps 14 pegs. -/
lemma rowPegsLen12 : (rowPegs 12).length = 14 := by
  have hn : pegsInRow 12 = 14 := by norm_num [pegsInRow, numRows] <;> rfl
  simp only [rowPegs, hn]
  norm_num [List.range_succ, List.filterMap_cons, List.filterMap_nil,
    List.filterMap_append, playAreaTop, playAreaHeight, playAreaBottom,
    playAreaLeft, playAreaRight, playAreaWidth, canvasWidth, canvasHeight]

/-- Row 13 of the generated peg field keeps 13 pegs. -/
lemma rowPegsLen13 : (rowPegs 13).length = 13 := by
  have hn : pegsInRow 13 = 14 := by norm_num [pegsInRow, numRows] <;> rfl
  simp only [rowPegs, hn]
  norm_num [List.range_succ, List.filterMap_cons, List.filterMap_nil,
    List.filterMap_append, playAreaTop, playAreaHeight, playAreaBottom,
    playAreaLeft, playAreaRight, playAreaWidth, canvasWidth, canvasHeight]

/-- Row 14 of the generated peg field keeps 15 pegs. -/
lemma rowPegsLen14 : (rowPegs 14).length = 15 := by
  have hn : pegsInRow 14 = 15 := by norm_num [pegsInRow, numRows] <;> rfl
  simp only [rowPegs, hn]
  norm_num [List.range_succ, List.filterMap_cons, List.filterMap_nil,
    List.filterMap_append, playAreaTop, playAreaHeight, playAreaBottom,
    playAreaLeft, playAreaRight, playAreaWidth, canvasWidth, canvasHeight]

/-- Row 15 of the generated peg field keeps 15 pegs. -/
lemma rowPegsLen15 : (rowPegs 15).length = 15 := by
  have hn : pegsInRow 15 = 16 := by norm_num [pegsInRow, numRows] <;> rfl
  simp only [rowPegs, hn]
  norm_num [List.range_succ, List.filterMap_cons, List.filterMap_nil,
    List.filterMap_append, playAreaTop, playAreaHeight, playAreaBottom,
    playAreaLeft, playAreaRight, playAreaWidth, canvasWidth, canvasHeight]

/-- Row 16 of the generated peg field keeps 16 pegs. -/
lemma rowPegsLen16 : (rowPegs 16).length = 16 := by
  have hn : pegsInRow 16 = 16 := by norm_num [pegsInRow, numRows] <;> rfl
  simp only [rowPegs, hn]
  norm_num [List.range_succ, List.filterMap_cons, List.filterMap_nil,
    List.filterMap_append, playAreaTop, playAreaHeight, playAreaBottom,
    playAreaLeft, playAreaRight, playAreaWidth, canvasWidth, canvasHeight]

/-- Row 17 of the generated peg field keeps 16 pegs. -/
lemma rowPegsLen17 : (rowPegs 17).length = 16 := by
  have hn : pegsInRow 17 = 17 := by norm_num [pegsInRow, numRows] <;> rfl
  simp only [rowPegs, hn]
  norm_num [List.range_succ, List.filterMap_cons, List.filterMap_nil,
    List.filterMap_append, playAreaTop, playAreaHeight, playAreaBottom,
    playAreaLeft, playAreaRight, playAreaWidth, canvasWidth, canvasHeight]

/-- Row 18 of the generated peg field keeps 18 pegs. -/
lemma rowPegsLen18 : (rowPegs 18).length = 18 := by
  have hn : pegsInRow 18 = 18 := by norm_num [pegsInRow, numRows] <;> rfl
  simp only [rowPegs, hn]
  norm_num [List.range_succ, List.filterMap_cons, List.filterMap_nil,
    List.filterMap_append, playAreaTop, playAreaHeight, playAreaBottom,
    playAreaLeft, playAreaRight, playAreaWidth, canvasWidth, canvasHeight]

/-- Row 19 of the generated peg field keeps 18 pegs. -/
lemma rowPegsLen19 : (rowPegs 19).length = 18 := by
  have hn : pegsInRow 19 = 19 := by norm_num [pegsInRow, numRows] <;> rfl
  simp only [rowPegs, hn]
  norm_num [List.range_succ, List.filterMap_cons, List.filterMap_nil,
    List.filterMap_append, playAreaTop, playAreaHeight, playAreaBottom,
    playAreaLeft, playAreaRight, playAreaWidth, canvasWidth, canvasHeight]

/-- Every peg kept by a row passes the horizontal play-area filter. -/
lemma rowPegs_x_in_bounds {row : ℕ} {p : Peg} (hp : p ∈ rowPegs row) :
    playAreaLeft ≤ p.x ∧ p.x ≤ playAreaRight := by
  unfold rowPegs at hp
  dsimp only at hp
  rw [List.mem_filterMap] at hp
  obtain ⟨col, -, hcol⟩ := hp
  repeat' split at hcol
  all_goals first
    | exact Option.noConfusion hcol
    | (rw [Option.some.injEq] at hcol
       subst hcol
       dsimp only
       assumption)

/-- Every peg in the generated field passes the horizontal play-area filter. -/
lemma generatePegs_x_in_bounds :
    ∀ p ∈ generatePegs, playAreaLeft ≤ p.x ∧ p.x ≤ playAreaRight := by
  intro p hp
  unfold generatePegs at hp
  rw [List.mem_flatMap] at hp
  obtain ⟨r, -, hpr⟩ := hp
  exact rowPegs_x_in_bounds hpr

/-- Counterexample to C6 as stated: after the out-of-area filter, row 1 keeps
only 5 pegs (fewer than the 6 of row 0, so row 0 does not have the fewest),
and the last row (row 19) keeps 18 pegs, not 19 (its computed last peg falls
beyond the right play-area edge and is dropped). -/
theorem peg_row_extremes_counterexample :
    (rowPegs 0).length = 6 ∧ (rowPegs 1).length = 5 ∧
    (rowPegs (numRows - 1)).length = 18 ∧
    (rowPegs 1).length < (rowPegs 0).length ∧
    (rowPegs (numRows - 1)).length ≠ 19 := by
  have h19 : numRows - 1 = 19 := by norm_num [numRows]
  rw [h19, rowPegsLen0, rowPegsLen1, rowPegsLen19]
  norm_num

/-- Claim C6 amended: the peg-field generator is a pure function of the fixed
board configuration (no random input, hence deterministic across calls); the
computed row sizes before the bounds filter are 6 for row 0 and 19 for the
last row; every kept peg has x inside [playAreaLeft, playAreaRight]; the kept
row sizes are [6,5,7,7,8,8,10,9,11,11,12,12,14,13,15,15,16,16,18,18], so after
the filter row 1 keeps the fewest pegs (5) and the 18-peg maximum is shared by
rows 18 and 19. -/
theorem peg_field_generation :
    pegsInRow 0 = 6 ∧ pegsInRow (numRows - 1) = 19 ∧
    ((List.range numRows).map (fun r => (rowPegs r).length)
      = [6, 5, 7, 7, 8, 8, 10, 9, 11, 11, 12, 12, 14, 13, 15, 15, 16, 16, 18, 18]) ∧
    (∀ p ∈ generatePegs, playAreaLeft ≤ p.x ∧ p.x ≤ playAreaRight) ∧
    (∀ r, r < numRows → 5 ≤ (rowPegs r).length ∧ (rowPegs r).length ≤ 18) := by
  refine ⟨by norm_num [pegsInRow, numRows] <;> rfl,
    by norm_num [pegsInRow, numRows] <;> rfl, ?_, generatePegs_x_in_bounds, ?_⟩
  · simp [numRows, List.range_succ, rowPegsLen0, rowPegsLen1, rowPegsLen2,
      rowPegsLen3, rowPegsLen4, rowPegsLen5, rowPegsLen6, rowPegsLen7,
      rowPegsLen8, rowPegsLen9, rowPegsLen10, rowPegsLen11, rowPegsLen12,
      rowPegsLen13, rowPegsLen14, rowPegsLen15, rowPegsLen16, rowPegsLen17,
      rowPegsLen18, rowPegsLen19]
  · intro r hr
    rw [numRows] at hr
    interval_cases r <;>
      norm_num [rowPegsLen0, rowPegsLen1, rowPegsLen2, rowPegsLen3,
        rowPegsLen4, rowPegsLen5, rowPegsLen6, rowPegsLen7, rowPegsLen8,
        rowPegsLen9, rowPegsLen10, rowPegsLen11, rowPegsLen12, rowPegsLen13,
        rowPegsLen14, rowPegsLen15, rowPegsLen16, rowPegsLen17, rowPegsLen18,
        rowPegsLen19]

/-- Witness for C6 amended: row 5 of the field keeps 8 pegs, within [5, 18],
and the concrete first peg of row 0, at (70, 100), lies inside the play
area. -/
theorem peg_field_generation_witness :
    (5 ≤ (rowPegs 5).length ∧ (rowPegs 5).length ≤ 18) ∧
    (playAreaLeft ≤ ((⟨70, 100, 5⟩ : Peg)).x ∧
      ((⟨70, 100, 5⟩ : Peg)).x ≤ playAreaRight) := by
  constructor
  · exact peg_field_generation.2.2.2.2 5 (by norm_num [numRows])
  · refine peg_field_generation.2.2.2.1 ⟨70, 100, 5⟩ ?_
    unfold generatePegs
    rw [List.mem_flatMap]
    refine ⟨0, by norm_num [numRows], ?_⟩
    have hn : pegsInRow 0 = 6 := by norm_num [pegsInRow, numRows]
    simp only [rowPegs, hn]
    norm_num [List.range_succ, List.filterMap_cons, List.filterMap_nil,
      List.filterMap_append, playAreaTop, playAreaHeight, playAreaBottom,
      playAreaLeft, playAreaRight, playAreaWidth, canvasWidth, canvasHeight,
      PEG_RADIUS, Peg.mk.injEq]
